import Mathlib

/-!
Verification of the biometric attendance backend.

The repository contains three closely related Express servers:
* a facial variant backed by in-memory arrays (`server.js`, first half);
* a fingerprint variant backed by in-memory arrays (`src/unnamed/part_000`);
* a fingerprint variant backed by mongoose (`server.js`, second half).

This file gives a shallow embedding of the request handlers of those servers.
Request bodies that are missing or not arrays are not representable here; the
embedding covers the well-typed inputs (a template is a list of integers, a
name and an id are strings).  Randomly generated ids, the wall clock and the
requesting device are passed to the handlers as explicit oracle inputs.
JavaScript ISO timestamp strings compare exactly as their instants, so
timestamps are embedded as naturals.
-/

namespace AttendanceServer

/-- The attendance event type enum, `'IN' | 'OUT'` in the source. -/
inductive EventType where
  | IN : EventType
  | OUT : EventType
deriving DecidableEq, Repr

/-- An enrolled user, `{ id, name, fingerprintTemplate, createdAt }`
(`src/unnamed/part_000` line 27; the facial variant stores the same shape with
the template field called `facialVector`). -/
structure User where
  id : String
  name : String
  fingerprintTemplate : List Int
  createdAt : Nat
deriving DecidableEq, Repr

/-- An attendance record, `{ id, userId, timestamp, type, device }`
(`src/unnamed/part_000` lines 28 and 174-180). -/
structure AttendanceRecord where
  id : String
  userId : String
  timestamp : Nat
  type : EventType
  device : String
deriving DecidableEq, Repr

/-- JSON values, used to embed response bodies exactly as the handlers
serialize them. -/
inductive JVal where
  | jstr : String → JVal
  | jnum : Int → JVal
  | jarr : List JVal → JVal
  | jobj : List (String × JVal) → JVal

/-- An HTTP response: status code and JSON body. -/
structure Response where
  status : Nat
  body : JVal

/-- The mutable server state: the two in-memory collections
(`src/unnamed/part_000` lines 27-28). -/
structure ServerState where
  users : List User
  attendanceRecords : List AttendanceRecord
deriving DecidableEq, Repr

/-- `apiAuth` middleware (`src/unnamed/part_000` lines 52-63): the request is
let through exactly when the `x-api-key` header is present, truthy
(JavaScript: a nonempty string) and strictly equal to the server key. -/
def apiAuthOk (apiKey : Option String) (requiredApiKey : String) : Bool :=
  match apiKey with
  | some k => decide (k ≠ "") && decide (k = requiredApiKey)
  | none => false

/-- `identifyUserFromFingerprint` (`src/unnamed/part_000` lines 81-104): a
template shorter than 50 entries is rejected before any candidate is
consulted; otherwise the mock matcher returns the first enrolled user. -/
def identifyUserFromFingerprint (users : List User) (incomingTemplate : List Int) :
    Option String :=
  if incomingTemplate.length < 50 then none
  else
    match users.head? with
    | some mockUser => some mockUser.id
    | none => none

/-- `identifyUserFromVector` (`server.js` lines 81-103, facial variant): a
vector shorter than 100 entries is rejected; the match branch additionally
requires the length to be strictly greater than 100. -/
def identifyUserFromVector (users : List User) (incomingVector : List Int) :
    Option String :=
  if incomingVector.length < 100 then none
  else
    match users.head? with
    | some mockUser => if incomingVector.length > 100 then some mockUser.id else none
    | none => none

/-- The comparator `(a, b) => new Date(b.timestamp) - new Date(a.timestamp)`
passed to `Array.prototype.sort`: `a` may precede `b` iff `b`'s timestamp is
not above `a`'s. -/
def tsDesc (a b : AttendanceRecord) : Prop := b.timestamp ≤ a.timestamp

instance : DecidableRel tsDesc := fun _ _ => Nat.decLe _ _

instance : IsTotal AttendanceRecord tsDesc :=
  ⟨fun a b => (Nat.le_total b.timestamp a.timestamp).imp id id⟩

instance : IsTrans AttendanceRecord tsDesc :=
  ⟨fun _ _ _ hab hbc => le_trans hbc hab⟩

/-- `records.sort((a, b) => new Date(b.timestamp) - new Date(a.timestamp))`:
JavaScript `sort` is stable and sorts ascending by comparator, hence a stable
descending sort by timestamp; `List.insertionSort` with `tsDesc` is that
unique stable descending arrangement. -/
def sortByTimestampDesc (l : List AttendanceRecord) : List AttendanceRecord :=
  l.insertionSort tsDesc

/-- The filter `record => record.userId === userId` applied to the attendance
collection (`src/unnamed/part_000` line 167). -/
def recordsFor (userId : String) (l : List AttendanceRecord) : List AttendanceRecord :=
  l.filter (fun record => decide (record.userId = userId))

/-- Lines 166-171 of `src/unnamed/part_000` (identically lines 165-170 of
`server.js` and, via `findOne().sort({timestamp: -1})`, lines 461-463 of the
mongoose variant): pick the user's latest record by sorting descending, and
produce `IN` iff there is no record or the latest record is `OUT`. -/
def nextEventType (attendanceRecords : List AttendanceRecord) (userId : String) :
    EventType :=
  match (sortByTimestampDesc (recordsFor userId attendanceRecords)).head? with
  | none => EventType.IN
  | some lastRecord =>
      if lastRecord.type = EventType.OUT then EventType.IN else EventType.OUT

/-- String rendering of an event type, as serialized in responses. -/
def eventTypeString : EventType → String
  | EventType.IN => "IN"
  | EventType.OUT => "OUT"

/-- `users.find(u => u.id === userId)?.name || dflt`
(`src/unnamed/part_000` line 184): the fallback also fires on an empty name,
because the empty string is falsy. -/
def lookupNameOr (users : List User) (userId : String) (dflt : String) : String :=
  match users.find? (fun u => decide (u.id = userId)) with
  | some u => if u.name = "" then dflt else u.name
  | none => dflt

/-- `POST /api/v1/users/enroll` (`src/unnamed/part_000` lines 117-142).
`newUserId` and `now` stand for the generated random id and the clock. -/
def enroll (s : ServerState) (name : String) (fingerprintTemplate : List Int)
    (newUserId : String) (now : Nat) : Response × ServerState :=
  if name = "" ∨ fingerprintTemplate.length = 0 then
    (⟨400, JVal.jobj [("message",
        JVal.jstr "Missing required fields: name and fingerprintTemplate must be provided.")]⟩,
      s)
  else
    let newUser : User :=
      { id := newUserId, name := name, fingerprintTemplate := fingerprintTemplate,
        createdAt := now }
    (⟨201, JVal.jobj
        [("message", JVal.jstr "Student successfully enrolled and fingerprint data stored."),
         ("user", JVal.jobj
           [("id", JVal.jstr newUserId),
            ("name", JVal.jstr name),
            ("createdAt", JVal.jnum (now : Int))])]⟩,
      { users := s.users ++ [newUser], attendanceRecords := s.attendanceRecords })

/-- `POST /api/v1/attendance/check_in_out` (`src/unnamed/part_000` lines
149-194, fingerprint variant).  `newRecordId`, `now` and `device` stand for
the generated id, the clock and `req.ip`. -/
def checkInOut (s : ServerState) (incomingTemplate : List Int)
    (newRecordId : String) (now : Nat) (device : String) : Response × ServerState :=
  if incomingTemplate.length = 0 then
    (⟨400, JVal.jobj [("message", JVal.jstr "Missing required field: incomingTemplate.")]⟩, s)
  else
    match identifyUserFromFingerprint s.users incomingTemplate with
    | none =>
        (⟨404, JVal.jobj [("message",
            JVal.jstr "Fingerprint not recognized. Please try again.")]⟩, s)
    | some userId =>
        let eventType := nextEventType s.attendanceRecords userId
        let newRecord : AttendanceRecord :=
          { id := newRecordId, userId := userId, timestamp := now, type := eventType,
            device := device }
        let studentName := lookupNameOr s.users userId "Unknown Student"
        (⟨200, JVal.jobj
            [("message", JVal.jstr (studentName ++
               ", your attendance has been recorded successfully. You are Clocked " ++
               eventTypeString eventType ++ ".")),
             ("record", JVal.jobj
               [("timestamp", JVal.jnum (now : Int)),
                ("type", JVal.jstr (eventTypeString eventType))])]⟩,
          { users := s.users, attendanceRecords := s.attendanceRecords ++ [newRecord] })

/-- `POST /api/v1/attendance/check_in_out` of the facial variant (`server.js`
lines 148-193); identical to the fingerprint handler except for the resolver
and the messages. -/
def checkInOutFacial (s : ServerState) (incomingVector : List Int)
    (newRecordId : String) (now : Nat) (device : String) : Response × ServerState :=
  if incomingVector.length = 0 then
    (⟨400, JVal.jobj [("message", JVal.jstr "Missing required field: incomingVector.")]⟩, s)
  else
    match identifyUserFromVector s.users incomingVector with
    | none =>
        (⟨404, JVal.jobj [("message",
            JVal.jstr "Facial identity not recognized. Please try again.")]⟩, s)
    | some userId =>
        let eventType := nextEventType s.attendanceRecords userId
        let newRecord : AttendanceRecord :=
          { id := newRecordId, userId := userId, timestamp := now, type := eventType,
            device := device }
        let userName := lookupNameOr s.users userId "Unknown User"
        (⟨200, JVal.jobj
            [("message", JVal.jstr (userName ++
               ", your attendance has been recorded successfully. You are Clocked " ++
               eventTypeString eventType ++ ".")),
             ("record", JVal.jobj
               [("timestamp", JVal.jnum (now : Int)),
                ("type", JVal.jstr (eventTypeString eventType))])]⟩,
          { users := s.users, attendanceRecords := s.attendanceRecords ++ [newRecord] })

/-- A record enriched with `userName`, as produced by the report mapping
(`src/unnamed/part_000` lines 215-221). -/
structure DetailedRecord where
  id : String
  userId : String
  timestamp : Nat
  type : EventType
  device : String
  userName : String
deriving DecidableEq, Repr

/-- `{...record, userName: user ? user.name : 'N/A'}` using
`users.find(u => u.id === record.userId)`: here only existence is tested, the
name is taken verbatim. -/
def detailRecord (users : List User) (record : AttendanceRecord) : DetailedRecord :=
  { id := record.id, userId := record.userId, timestamp := record.timestamp,
    type := record.type, device := record.device,
    userName :=
      match users.find? (fun u => decide (u.id = record.userId)) with
      | some u => u.name
      | none => "N/A" }

/-- The report sort comparator on detailed records: same
`(a, b) => new Date(b.timestamp) - new Date(a.timestamp)` comparator. -/
def dtsDesc (a b : DetailedRecord) : Prop := b.timestamp ≤ a.timestamp

instance : DecidableRel dtsDesc := fun _ _ => Nat.decLe _ _

instance : IsTotal DetailedRecord dtsDesc :=
  ⟨fun a b => (Nat.le_total b.timestamp a.timestamp).imp id id⟩

instance : IsTrans DetailedRecord dtsDesc :=
  ⟨fun _ _ _ hab hbc => le_trans hbc hab⟩

/-- The stable descending-by-timestamp sort applied to the detailed report. -/
def sortDetailedByTimestampDesc (l : List DetailedRecord) : List DetailedRecord :=
  l.insertionSort dtsDesc

/-- The `userId` query parameter, embedded as a string where the empty string
means a missing or empty parameter: JavaScript branches on the truthiness of
`req.query.userId || req.params.userId`, and a missing parameter and an empty
one are equally falsy. -/
def queryGiven (userIdQuery : String) : Prop := userIdQuery ≠ ""

instance : DecidablePred queryGiven := fun q =>
  inferInstanceAs (Decidable (q ≠ ""))

/-- The record list the report endpoint starts from: all records, or the
records filtered by the (truthy) `userId` query
(`src/unnamed/part_000` lines 201-207). -/
def reportBase (s : ServerState) (userIdQuery : String) : List AttendanceRecord :=
  if queryGiven userIdQuery then
    s.attendanceRecords.filter (fun record => decide (record.userId = userIdQuery))
  else s.attendanceRecords

/-- The list serialized by the report endpoint: records enriched with the user
name, then sorted newest-first (`src/unnamed/part_000` lines 215-221). -/
def reportListing (s : ServerState) (userIdQuery : String) : List DetailedRecord :=
  sortDetailedByTimestampDesc ((reportBase s userIdQuery).map (detailRecord s.users))

/-- JSON serialization of one detailed report entry. -/
def detailedRecordToJVal (d : DetailedRecord) : JVal :=
  JVal.jobj
    [("id", JVal.jstr d.id),
     ("userId", JVal.jstr d.userId),
     ("timestamp", JVal.jnum (d.timestamp : Int)),
     ("type", JVal.jstr (eventTypeString d.type)),
     ("device", JVal.jstr d.device),
     ("userName", JVal.jstr d.userName)]

/-- `GET /api/v1/attendance/report` (`src/unnamed/part_000` lines 200-227):
with a truthy `userId` query naming no enrolled user the endpoint answers 404;
otherwise it returns the (possibly filtered) listing sorted newest-first. -/
def report (s : ServerState) (userIdQuery : String) : Response :=
  if queryGiven userIdQuery then
    if s.users.any (fun u => decide (u.id = userIdQuery)) then
      ⟨200, JVal.jobj
        [("totalRecords", JVal.jnum ((reportListing s userIdQuery).length : Int)),
         ("report", JVal.jarr ((reportListing s userIdQuery).map detailedRecordToJVal))]⟩
    else
      ⟨404, JVal.jobj [("message",
        JVal.jstr ("Student ID " ++ userIdQuery ++ " not found."))]⟩
  else
    ⟨200, JVal.jobj
      [("totalRecords", JVal.jnum ((reportListing s userIdQuery).length : Int)),
       ("report", JVal.jarr ((reportListing s userIdQuery).map detailedRecordToJVal))]⟩

/-- `GET /health` (`src/unnamed/part_000` lines 233-235): mounted outside the
authenticated router, it takes no credential at all. -/
def health (s : ServerState) : Response :=
  ⟨200, JVal.jobj
    [("status", JVal.jstr "ok"),
     ("service", JVal.jstr "Fingerprint Biometric Backend"),
     ("mockDbStudents", JVal.jnum (s.users.length : Int))]⟩

/-- One request to the authenticated `/api/v1` router, together with the
oracle inputs (generated ids, clock reading, device tag) its handler uses. -/
inductive ApiRequest where
  | enrollReq (name : String) (fingerprintTemplate : List Int)
      (newUserId : String) (now : Nat) : ApiRequest
  | checkInOutReq (incomingTemplate : List Int) (newRecordId : String)
      (now : Nat) (device : String) : ApiRequest
  | reportReq (userIdQuery : String) : ApiRequest

/-- Routing of an authenticated request to its handler. -/
def dispatch (s : ServerState) : ApiRequest → Response × ServerState
  | ApiRequest.enrollReq name tmpl uid now => enroll s name tmpl uid now
  | ApiRequest.checkInOutReq tmpl rid now dev => checkInOut s tmpl rid now dev
  | ApiRequest.reportReq q => (report s q, s)

/-- The `/api/v1` surface: `apiAuth` runs first (`router.use(apiAuth)`), and a
request failing it is answered 401 before any handler runs. -/
def handleApi (requiredApiKey : String) (s : ServerState) (apiKey : Option String)
    (req : ApiRequest) : Response × ServerState :=
  if apiAuthOk apiKey requiredApiKey then dispatch s req
  else
    (⟨401, JVal.jobj [("message",
        JVal.jstr "Unauthorized: Invalid or missing X-API-Key header.")]⟩, s)

/-- The real-time clock: a check-in request carries a `new Date()` reading
strictly later than every timestamp already in the ledger. -/
def freshClock (s : ServerState) : ApiRequest → Bool
  | ApiRequest.checkInOutReq _ _ now _ =>
      s.attendanceRecords.all (fun r => decide (r.timestamp < now))
  | _ => true

/-- States reachable from the empty collections by any sequence of `/api/v1`
requests (authorized or not), under the strictly monotone clock. -/
inductive Reachable (requiredApiKey : String) : ServerState → Prop where
  | init : Reachable requiredApiKey { users := [], attendanceRecords := [] }
  | step {s : ServerState} (apiKey : Option String) (req : ApiRequest)
      (hs : Reachable requiredApiKey s) (hclock : freshClock s req = true) :
      Reachable requiredApiKey (handleApi requiredApiKey s apiKey req).2

/-- Hex digit test used by the ObjectId validity model. -/
def isHexChar (c : Char) : Bool :=
  c.isDigit || (('a' ≤ c) && (c ≤ 'f')) || (('A' ≤ c) && (c ≤ 'F'))

/-- Modelled behavior of the external library call
`mongoose.Types.ObjectId.isValid` on strings: a 24-character hex string is a
valid ObjectId. -/
def isValidObjectId (s : String) : Bool :=
  decide (s.length = 24) && s.toList.all isHexChar

/-- `populate('userId', 'name')`: in the mongoose report the `userId` field is
replaced by the referenced user object restricted to its name. -/
def populatedRecordToJVal (users : List User) (record : AttendanceRecord) : JVal :=
  JVal.jobj
    [("userId",
       match users.find? (fun u => decide (u.id = record.userId)) with
       | some u => JVal.jobj [("_id", JVal.jstr u.id), ("name", JVal.jstr u.name)]
       | none => JVal.jstr record.userId),
     ("timestamp", JVal.jnum (record.timestamp : Int)),
     ("type", JVal.jstr (eventTypeString record.type)),
     ("device", JVal.jstr record.device)]

/-- `GET /api/v1/attendance/report` of the mongoose variant (`server.js`
lines 496-522): a truthy `userId` of invalid ObjectId shape is answered 400;
otherwise the records (filtered by `userId` when given) are returned sorted
newest-first — no check that the user exists is ever made. -/
def reportMongoose (attendance : List AttendanceRecord) (users : List User)
    (userIdQuery : String) : Response :=
  if queryGiven userIdQuery then
    if isValidObjectId userIdQuery then
      let rep := sortByTimestampDesc
        (attendance.filter (fun record => decide (record.userId = userIdQuery)))
      ⟨200, JVal.jobj
        [("totalRecords", JVal.jnum (rep.length : Int)),
         ("report", JVal.jarr (rep.map (populatedRecordToJVal users)))]⟩
    else
      ⟨400, JVal.jobj [("message", JVal.jstr "Invalid Student ID format.")]⟩
  else
    let rep := sortByTimestampDesc attendance
    ⟨200, JVal.jobj
      [("totalRecords", JVal.jnum (rep.length : Int)),
       ("report", JVal.jarr (rep.map (populatedRecordToJVal users)))]⟩

/-- Modelled from the spec: the Identity Resolution Service of §4.1.  The
source stubs the matcher (it ignores confidence entirely and returns the
first enrolled user), and §1/§9 of the spec declare the real matching logic
and its acceptance threshold out of scope, so the policy is modelled here:
probes below the length floor are rejected without consulting the Matcher,
and a Matcher candidate is accepted only when its confidence score meets or
exceeds the configured threshold. -/
def resolve (matcher : List Int → List User → Option (String × Rat)) (threshold : Rat)
    (minLength : Nat) (users : List User) (probeTemplate : List Int) : Option String :=
  if probeTemplate.length < minLength then none
  else
    match matcher probeTemplate users with
    | none => none
    | some (identityId, confidenceScore) =>
        if confidenceScore < threshold then none else some identityId

/-- The opposite event type. -/
def flipType : EventType → EventType
  | EventType.IN => EventType.OUT
  | EventType.OUT => EventType.IN

/-- `altFrom e l` holds when the sequence `l` of event types starts with `e`
and strictly alternates from there. -/
def altFrom : EventType → List EventType → Bool
  | _, [] => true
  | e, t :: ts => decide (t = e) && altFrom (flipType e) ts

/-- The spec's alternation shape: the sequence starts with `IN` and strictly
alternates. -/
def alternatesFromIN (l : List EventType) : Bool :=
  altFrom EventType.IN l

/-- The event type expected right after a sequence of `l.length` events whose
first expected type was `e`. -/
def iterFlip : EventType → List EventType → EventType
  | e, [] => e
  | e, _ :: ts => iterFlip (flipType e) ts

/-- `r` is a latest event of identity `uid` in `records`: it belongs to the
identity and no event of the identity has a later timestamp. -/
def isLatestFor (uid : String) (records : List AttendanceRecord)
    (r : AttendanceRecord) : Prop :=
  r ∈ records ∧ r.userId = uid ∧
    ∀ e ∈ records, e.userId = uid → e.timestamp ≤ r.timestamp

/-- The ledger invariant maintained by the server: timestamps strictly
increase along the stored order, and each identity's events, which by the
first part are already in timestamp order, strictly alternate starting with
`IN`. -/
def ledgerOK (s : ServerState) : Prop :=
  s.attendanceRecords.Pairwise (fun a b => a.timestamp < b.timestamp) ∧
  ∀ uid, alternatesFromIN ((recordsFor uid s.attendanceRecords).map
    AttendanceRecord.type) = true

/-- Subvalue relation on JSON values: `SubVal x v` holds when `x` occurs
somewhere inside `v` (including `v` itself). -/
inductive SubVal : JVal → JVal → Prop where
  | refl (v : JVal) : SubVal v v
  | inArr {x v : JVal} {l : List JVal} :
      v ∈ l → SubVal x v → SubVal x (JVal.jarr l)
  | inObj {x v : JVal} {l : List (String × JVal)} {k : String} :
      (k, v) ∈ l → SubVal x v → SubVal x (JVal.jobj l)

/-- Shape invariant of every response body the server builds: each array
occurring in it contains only objects (so in particular no array of numbers —
no serialized template — can occur anywhere inside). -/
inductive GoodVal : JVal → Prop where
  | str (s : String) : GoodVal (JVal.jstr s)
  | num (n : Int) : GoodVal (JVal.jnum n)
  | obj (l : List (String × JVal)) : (∀ p ∈ l, GoodVal p.2) → GoodVal (JVal.jobj l)
  | arr (l : List JVal) :
      (∀ v ∈ l, ∃ fields, v = JVal.jobj fields) → (∀ v ∈ l, GoodVal v) →
      GoodVal (JVal.jarr l)

/-- Lexicographic character-list comparison by code point, spelling out the
standard string order used to read the spec's "event id descending". -/
def strLtList : List Char → List Char → Bool
  | [], [] => false
  | [], _ :: _ => true
  | _ :: _, [] => false
  | a :: as, b :: bs =>
      if a.toNat < b.toNat then true
      else if b.toNat < a.toNat then false
      else strLtList as bs

/-- Strict lexicographic order on strings by code point. -/
def strLt (a b : String) : Bool := strLtList a.data b.data

/-- The ordering the spec claims for report listings: strictly newer first,
ties between equal timestamps broken by event id descending. -/
def claimedReportOrder (a b : DetailedRecord) : Prop :=
  b.timestamp < a.timestamp ∨ (a.timestamp = b.timestamp ∧ strLt b.id a.id = true)

instance : DecidableRel claimedReportOrder := fun a b =>
  inferInstanceAs (Decidable (b.timestamp < a.timestamp ∨
    (a.timestamp = b.timestamp ∧ strLt b.id a.id = true)))

/-- An example history for the C1 witness: one enrolled user with a single
`IN` event. -/
def c1State : ServerState :=
  { users := [{ id := "u1", name := "Alice",
                fingerprintTemplate := List.replicate 60 1, createdAt := 0 }],
    attendanceRecords :=
      [{ id := "a", userId := "u1", timestamp := 1, type := EventType.IN,
         device := "d" }] }

/-- Enrollment request used by the C2 witness. -/
def c2Req1 : ApiRequest := ApiRequest.enrollReq "Alice" (List.replicate 60 1) "u1" 1

/-- Check-in request used by the C2 witness. -/
def c2Req2 : ApiRequest := ApiRequest.checkInOutReq (List.replicate 60 2) "r1" 2 "dev"

/-- The state reached by the two C2 witness requests. -/
def c2State2 : ServerState :=
  (handleApi "k" (handleApi "k" { users := [], attendanceRecords := [] }
    (some "k") c2Req1).2 (some "k") c2Req2).2

/-- A state with one enrolled user and an empty ledger, used by several
witnesses. -/
def oneUserState : ServerState :=
  { users := [{ id := "u1", name := "Alice",
                fingerprintTemplate := List.replicate 60 1, createdAt := 0 }],
    attendanceRecords := [] }

/-- A concrete matcher for the C4 witness. -/
def c4Matcher : List Int → List User → Option (String × Rat) :=
  fun _ _ => some ("u1", 2)

/-- A ledger with two events of the same identity carrying equal timestamps
and ascending ids, for the C5 counterexample. -/
def c5State : ServerState :=
  { users := [{ id := "u1", name := "Alice",
                fingerprintTemplate := [1], createdAt := 0 }],
    attendanceRecords :=
      [{ id := "a", userId := "u1", timestamp := 5, type := EventType.IN,
         device := "d" },
       { id := "b", userId := "u1", timestamp := 5, type := EventType.OUT,
         device := "d" }] }

/-! ### General lemmas about the embedded operations -/

lemma mem_recordsFor {uid : String} {l : List AttendanceRecord} {e : AttendanceRecord} :
    e ∈ recordsFor uid l ↔ e ∈ l ∧ e.userId = uid := by
  simp [recordsFor, List.mem_filter]

lemma orderedInsert_eq_append {α : Type} (r : α → α → Prop) [DecidableRel r] (a : α) :
    ∀ l : List α, (∀ b ∈ l, ¬ r a b) → l.orderedInsert r a = l ++ [a] := by
  intro l
  induction l with
  | nil => intro _; rfl
  | cons b t ih =>
      intro h
      have hb : ¬ r a b := h b (List.mem_cons_self b t)
      simp only [List.orderedInsert, if_neg hb, List.cons_append, List.cons.injEq, true_and]
      exact ih (fun c hc => h c (List.mem_cons_of_mem b hc))

lemma insertionSort_eq_reverse {α : Type} (r : α → α → Prop) [DecidableRel r] :
    ∀ l : List α, l.Pairwise (fun a b => ¬ r a b) → l.insertionSort r = l.reverse := by
  intro l
  induction l with
  | nil => intro _; rfl
  | cons a t ih =>
      intro h
      have hh := (List.pairwise_cons.mp h).1
      have ht := (List.pairwise_cons.mp h).2
      simp only [List.insertionSort, ih ht, List.reverse_cons]
      exact orderedInsert_eq_append r a t.reverse
        (fun b hb => hh b (List.mem_reverse.mp hb))

lemma sortByTimestampDesc_of_ascending {l : List AttendanceRecord}
    (h : l.Pairwise (fun a b => a.timestamp < b.timestamp)) :
    sortByTimestampDesc l = l.reverse := by
  refine insertionSort_eq_reverse tsDesc l (h.imp ?_)
  intro a b hab
  exact fun hba => absurd hab (not_lt.mpr hba)

lemma altFrom_append_singleton (t : EventType) :
    ∀ (l : List EventType) (e : EventType),
      altFrom e (l ++ [t]) = (altFrom e l && decide (t = iterFlip e l)) := by
  intro l
  induction l with
  | nil => intro e; simp [altFrom, iterFlip, Bool.and_comm]
  | cons x xs ih =>
      intro e
      simp only [List.cons_append, altFrom, iterFlip, List.append_eq, ih (flipType e),
        Bool.and_assoc]

lemma iterFlip_eq_flip_getLast :
    ∀ (l : List EventType) (e : EventType), altFrom e l = true →
      iterFlip e l = (match l.getLast? with
        | none => e
        | some x => flipType x) := by
  intro l
  induction l with
  | nil => intro e _; rfl
  | cons x xs ih =>
      intro e h
      simp only [altFrom, Bool.and_eq_true, decide_eq_true_eq] at h
      cases xs with
      | nil => simp [iterFlip, h.1]
      | cons y ys =>
          simp only [iterFlip, List.getLast?_cons_cons]
          exact ih (flipType e) h.2

/-- Characterization of the sequencing decision of
`src/unnamed/part_000` lines 166-171: provided the identity's events carry
pairwise distinct timestamps, the next event type is `IN` exactly when the
identity has no event yet or its latest event (the one of maximal timestamp)
is an `OUT`. -/
lemma nextEventType_eq_IN_iff (records : List AttendanceRecord) (uid : String)
    (hdist : (recordsFor uid records).Pairwise (fun a b => a.timestamp ≠ b.timestamp)) :
    nextEventType records uid = EventType.IN ↔
      (recordsFor uid records = [] ∨
       ∃ p, isLatestFor uid records p ∧ p.type = EventType.OUT) := by
  have hperm : List.Perm (sortByTimestampDesc (recordsFor uid records))
      (recordsFor uid records) :=
    List.perm_insertionSort tsDesc _
  have hsorted : List.Sorted tsDesc (sortByTimestampDesc (recordsFor uid records)) :=
    List.sorted_insertionSort tsDesc _
  have hsymm : Symmetric (fun a b : AttendanceRecord => a.timestamp ≠ b.timestamp) :=
    fun _ _ h => h.symm
  cases hS : sortByTimestampDesc (recordsFor uid records) with
  | nil =>
      rw [hS] at hperm
      have hempty : recordsFor uid records = [] := hperm.symm.eq_nil
      have hval : nextEventType records uid = EventType.IN := by
        unfold nextEventType
        rw [hS]
        rfl
      simp [hval, hempty]
  | cons r0 rest =>
      rw [hS] at hperm hsorted
      have hval : nextEventType records uid =
          (if r0.type = EventType.OUT then EventType.IN else EventType.OUT) := by
        unfold nextEventType
        rw [hS]
        rfl
      have hr0L : r0 ∈ recordsFor uid records :=
        hperm.mem_iff.mp (List.mem_cons_self r0 rest)
      have hmax : ∀ e ∈ recordsFor uid records, e.timestamp ≤ r0.timestamp := by
        intro e he
        have hmem : e ∈ r0 :: rest := hperm.mem_iff.mpr he
        rcases List.mem_cons.mp hmem with h | h
        · rw [h]
        · exact List.rel_of_sorted_cons hsorted e h
      have hlat : isLatestFor uid records r0 := by
        refine ⟨(mem_recordsFor.mp hr0L).1, (mem_recordsFor.mp hr0L).2, ?_⟩
        intro e he hu
        exact hmax e (mem_recordsFor.mpr ⟨he, hu⟩)
      rw [hval]
      constructor
      · intro h
        refine Or.inr ⟨r0, hlat, ?_⟩
        by_contra hne
        rw [if_neg hne] at h
        exact EventType.noConfusion h
      · intro h
        rcases h with h | ⟨p, hp, hpOUT⟩
        · rw [h] at hperm
          exact absurd hperm.eq_nil (List.cons_ne_nil r0 rest)
        · have hpL : p ∈ recordsFor uid records := mem_recordsFor.mpr ⟨hp.1, hp.2.1⟩
          have hts : p.timestamp = r0.timestamp :=
            le_antisymm (hmax p hpL) (hp.2.2 r0 hlat.1 hlat.2.1)
          have hpr0 : p = r0 := by
            by_contra hne
            exact (hdist.forall hsymm hpL hr0L hne) hts
          rw [hpr0] at hpOUT
          rw [if_pos hpOUT]
lemma ledgerOK_records (s s' : ServerState)
    (h : s'.attendanceRecords = s.attendanceRecords) (hk : ledgerOK s) : ledgerOK s' := by
  unfold ledgerOK at hk ⊢
  rw [h]
  exact hk

lemma alternatesFromIN_append_singleton (l : List EventType) (t : EventType) :
    alternatesFromIN (l ++ [t]) =
      (alternatesFromIN l && decide (t = iterFlip EventType.IN l)) :=
  altFrom_append_singleton t l EventType.IN

lemma getLast?_map_type (l : List AttendanceRecord) :
    (l.map AttendanceRecord.type).getLast? = l.getLast?.map AttendanceRecord.type := by
  induction l with
  | nil => rfl
  | cons a t ih =>
      cases t with
      | nil => rfl
      | cons b u =>
          simp only [List.map_cons, List.getLast?_cons_cons] at ih ⊢
          exact ih

/-- Under strictly increasing timestamps, the sequencing decision agrees with
the alternation successor: the type the handler appends next is exactly the
one continuing the `IN`-led alternation of the identity's history. -/
lemma nextEventType_eq_iterFlip (records : List AttendanceRecord) (uid : String)
    (hasc : (recordsFor uid records).Pairwise (fun a b => a.timestamp < b.timestamp))
    (halt : alternatesFromIN ((recordsFor uid records).map AttendanceRecord.type) = true) :
    nextEventType records uid =
      iterFlip EventType.IN ((recordsFor uid records).map AttendanceRecord.type) := by
  unfold nextEventType
  rw [sortByTimestampDesc_of_ascending hasc, List.head?_reverse,
    iterFlip_eq_flip_getLast _ _ halt, getLast?_map_type]
  cases hL : (recordsFor uid records).getLast? with
  | none => rfl
  | some r =>
      cases htype : r.type with
      | IN => simp [flipType, htype]
      | OUT => simp [flipType, htype]

/-- Every state reachable by API requests satisfies the ledger invariant. -/
lemma reachable_ledgerOK {requiredApiKey : String} {s : ServerState}
    (h : Reachable requiredApiKey s) : ledgerOK s := by
  induction h with
  | init =>
      constructor
      · exact List.Pairwise.nil
      · intro uid
        rfl
  | step apiKey req hs hclock ih =>
      rename_i s
      unfold handleApi
      by_cases hauth : apiAuthOk apiKey requiredApiKey = true
      · rw [if_pos hauth]
        cases req with
        | enrollReq name tmpl uiD now =>
            simp only [dispatch]
            refine ledgerOK_records s _ ?_ ih
            unfold enroll
            by_cases hv : name = "" ∨ tmpl.length = 0
            · rw [if_pos hv]
            · rw [if_neg hv]
        | reportReq q =>
            simp only [dispatch]
            exact ih
        | checkInOutReq tmpl rid now dev =>
            have hcl : ∀ r ∈ s.attendanceRecords, r.timestamp < now := by
              simp only [freshClock, List.all_eq_true, decide_eq_true_eq] at hclock
              exact hclock
            simp only [dispatch]
            unfold checkInOut
            by_cases h0 : tmpl.length = 0
            · rw [if_pos h0]
              exact ih
            · rw [if_neg h0]
              cases hid : identifyUserFromFingerprint s.users tmpl with
              | none => exact ih
              | some uid =>
                  show ledgerOK
                    { users := s.users,
                      attendanceRecords := s.attendanceRecords ++
                        [{ id := rid, userId := uid, timestamp := now,
                           type := nextEventType s.attendanceRecords uid,
                           device := dev }] }
                  refine ⟨?_, ?_⟩
                  · refine List.pairwise_append.mpr ⟨ih.1, ?_, ?_⟩
                    · exact List.pairwise_singleton _ _
                    · intro a ha b hb
                      rcases List.mem_singleton.mp hb with rfl
                      exact hcl a ha
                  · intro uid'
                    show alternatesFromIN ((recordsFor uid'
                      (s.attendanceRecords ++ [_])).map AttendanceRecord.type) = true
                    rw [recordsFor, List.filter_append, List.filter_singleton]
                    by_cases huid : uid = uid'
                    · rw [show (decide ((⟨rid, uid, now,
                          nextEventType s.attendanceRecords uid, dev⟩ :
                          AttendanceRecord).userId = uid')) = true from decide_eq_true huid]
                      rw [cond_true, List.map_append, List.map_singleton]
                      rw [alternatesFromIN_append_singleton, Bool.and_eq_true]
                      refine ⟨ih.2 uid', ?_⟩
                      rw [decide_eq_true_eq]
                      subst huid
                      exact nextEventType_eq_iterFlip s.attendanceRecords uid
                        (ih.1.sublist (List.filter_sublist _)) (ih.2 uid)
                    · rw [show (decide ((⟨rid, uid, now,
                          nextEventType s.attendanceRecords uid, dev⟩ :
                          AttendanceRecord).userId = uid')) = false from decide_eq_false huid]
                      rw [cond_false, List.append_nil]
                      exact ih.2 uid'
      · rw [if_neg hauth]
        exact ih

/-! ### Claim theorems -/

/-- Claim C1: for every identity and event history, the event appended by a
successful `check_in_out` has type `IN` iff the identity's history is empty or
its most recent event (the latest by timestamp, which is unambiguous because
timestamps are pairwise distinct) has type `OUT`; otherwise it has type
`OUT`. -/
theorem claim_C1_next_type (s : ServerState) (tmpl : List Int) (rid : String)
    (now : Nat) (dev : String)
    (hdist : s.attendanceRecords.Pairwise (fun a b => a.timestamp ≠ b.timestamp))
    (h200 : (checkInOut s tmpl rid now dev).1.status = 200) :
    ∃ r, (checkInOut s tmpl rid now dev).2.attendanceRecords =
        s.attendanceRecords ++ [r] ∧
      (r.type = EventType.IN ↔
        (recordsFor r.userId s.attendanceRecords = [] ∨
         ∃ p, isLatestFor r.userId s.attendanceRecords p ∧
           p.type = EventType.OUT)) := by
  unfold checkInOut at h200 ⊢
  by_cases h0 : tmpl.length = 0
  · rw [if_pos h0] at h200
    exact absurd h200 (by decide : ¬((400 : Nat) = 200))
  · rw [if_neg h0] at h200 ⊢
    cases hid : identifyUserFromFingerprint s.users tmpl with
    | none =>
        rw [hid] at h200
        exact absurd h200 (by decide : ¬((404 : Nat) = 200))
    | some uid =>
        refine ⟨{ id := rid, userId := uid, timestamp := now,
                  type := nextEventType s.attendanceRecords uid, device := dev },
                rfl, ?_⟩
        exact nextEventType_eq_IN_iff s.attendanceRecords uid
          (hdist.sublist (List.filter_sublist _))

/-- Witness for C1 at a concrete state and probe. -/
theorem claim_C1_witness :
    ∃ r, (checkInOut c1State (List.replicate 60 2) "b" 2 "d").2.attendanceRecords =
        c1State.attendanceRecords ++ [r] ∧
      (r.type = EventType.IN ↔
        (recordsFor r.userId c1State.attendanceRecords = [] ∨
         ∃ p, isLatestFor r.userId c1State.attendanceRecords p ∧
           p.type = EventType.OUT)) :=
  claim_C1_next_type c1State (List.replicate 60 2) "b" 2 "d" (by decide) (by decide)

/-- Claim C2: in every reachable state, each identity's attendance events are
stored in strictly increasing timestamp order — so the filtered list itself is
the timestamp ordering — and their types strictly alternate starting with
`IN`. -/
theorem claim_C2_reachable_alternation {requiredApiKey : String} {s : ServerState}
    (h : Reachable requiredApiKey s) (uid : String) :
    (recordsFor uid s.attendanceRecords).Pairwise
      (fun a b => a.timestamp < b.timestamp) ∧
    alternatesFromIN ((recordsFor uid s.attendanceRecords).map
      AttendanceRecord.type) = true :=
  ⟨(reachable_ledgerOK h).1.sublist (List.filter_sublist _),
   (reachable_ledgerOK h).2 uid⟩

/-- Witness for C2 at a concrete reachable state. -/
theorem claim_C2_witness :
    (recordsFor "u1" c2State2.attendanceRecords).Pairwise
      (fun a b => a.timestamp < b.timestamp) ∧
    alternatesFromIN ((recordsFor "u1" c2State2.attendanceRecords).map
      AttendanceRecord.type) = true :=
  claim_C2_reachable_alternation
    (Reachable.step (some "k") c2Req2
      (Reachable.step (some "k") c2Req1 Reachable.init (by decide))
      (by decide)) "u1"

/-- Claim C3 counterexample: with one enrolled user, a probe of length 10
(below the floor of 50) is answered 404 — not the claimed 400 — exactly the
status of a no-match. -/
theorem claim_C3_counterexample :
    (checkInOut oneUserState (List.replicate 10 0) "r1" 1 "dev").1.status = 404 ∧
    (checkInOut oneUserState (List.replicate 10 0) "r1" 1 "dev").1.status ≠ 400 :=
  ⟨rfl, by decide⟩

/-- Claim C3 (amended): a nonempty probe below the 50-entry floor is rejected
with 404 — indistinguishable from a no-match — without a state change and
without consulting the enrolled candidates (the resolver answers `none` for
every candidate set); only a missing or empty probe is answered 400. -/
theorem claim_C3_amended (s : ServerState) (tmpl : List Int) (rid : String)
    (now : Nat) (dev : String) (h1 : tmpl ≠ []) (h2 : tmpl.length < 50) :
    (checkInOut s tmpl rid now dev).1.status = 404 ∧
    (checkInOut s tmpl rid now dev).2 = s ∧
    ∀ users, identifyUserFromFingerprint users tmpl = none := by
  have h0 : ¬(tmpl.length = 0) := by
    intro h
    exact h1 (List.length_eq_zero.mp h)
  have hid : ∀ users, identifyUserFromFingerprint users tmpl = none := by
    intro users
    unfold identifyUserFromFingerprint
    rw [if_pos h2]
  refine ⟨?_, ?_, hid⟩
  · unfold checkInOut
    rw [if_neg h0, hid s.users]
  · unfold checkInOut
    rw [if_neg h0, hid s.users]

/-- Witness for the amended C3 at a concrete short probe. -/
theorem claim_C3_witness :
    (checkInOut oneUserState (List.replicate 7 0) "r2" 1 "dev").1.status = 404 ∧
    (checkInOut oneUserState (List.replicate 7 0) "r2" 1 "dev").2 = oneUserState ∧
    ∀ users, identifyUserFromFingerprint users (List.replicate 7 0) = none :=
  claim_C3_amended oneUserState (List.replicate 7 0) "r2" 1 "dev" (by decide) (by decide)

/-- Claim C4: the resolution service (modelled from §4.1 of the spec, since
the source stubs the matcher without any confidence) returns an identity only
when the Matcher offered it with a confidence meeting or exceeding the
configured acceptance threshold. -/
theorem claim_C4_threshold (matcher : List Int → List User → Option (String × Rat))
    (threshold : Rat) (minLength : Nat) (users : List User) (probe : List Int)
    (identityId : String)
    (h : resolve matcher threshold minLength users probe = some identityId) :
    ∃ confidenceScore, matcher probe users = some (identityId, confidenceScore) ∧
      threshold ≤ confidenceScore := by
  unfold resolve at h
  by_cases hlen : probe.length < minLength
  · rw [if_pos hlen] at h
    exact absurd h (by simp)
  · rw [if_neg hlen] at h
    cases hm : matcher probe users with
    | none =>
        rw [hm] at h
        exact absurd h (by simp)
    | some pr =>
        obtain ⟨iid, conf⟩ := pr
        rw [hm] at h
        change (if conf < threshold then none else some iid) = some identityId at h
        by_cases hc : conf < threshold
        · rw [if_pos hc] at h
          exact absurd h (by simp)
        · rw [if_neg hc] at h
          have hiid : iid = identityId := Option.some.inj h
          subst hiid
          exact ⟨conf, rfl, not_lt.mp hc⟩

/-- Witness for C4 at a concrete matcher, threshold and probe. -/
theorem claim_C4_witness :
    ∃ confidenceScore, c4Matcher (List.replicate 50 0) [] = some ("u1", confidenceScore) ∧
      (1 : Rat) ≤ confidenceScore :=
  claim_C4_threshold c4Matcher 1 50 [] (List.replicate 50 0) "u1" (by decide)

/-- Claim C6: a `/api/v1` request whose credential is not exactly the server
key is answered 401 with no state change — it never reaches resolution or
sequencing — while `/health` answers 200 without taking any credential. -/
theorem claim_C6_auth_gate (requiredApiKey : String) (s : ServerState)
    (apiKey : Option String) (req : ApiRequest)
    (h : apiKey ≠ some requiredApiKey) :
    (handleApi requiredApiKey s apiKey req).1.status = 401 ∧
    (handleApi requiredApiKey s apiKey req).2 = s ∧
    (health s).status = 200 := by
  have hauth : apiAuthOk apiKey requiredApiKey = false := by
    unfold apiAuthOk
    cases apiKey with
    | none => rfl
    | some k =>
        have hk : ¬(k = requiredApiKey) := fun hk => h (by rw [hk])
        simp [hk]
  refine ⟨?_, ?_, rfl⟩
  · unfold handleApi
    rw [hauth]
    rfl
  · unfold handleApi
    rw [hauth]
    rfl

/-- Witness for C6 at a concrete wrong credential. -/
theorem claim_C6_witness :
    (handleApi "secret" oneUserState (some "wrong") (ApiRequest.reportReq "")).1.status
        = 401 ∧
    (handleApi "secret" oneUserState (some "wrong") (ApiRequest.reportReq "")).2
        = oneUserState ∧
    (health oneUserState).status = 200 :=
  claim_C6_auth_gate "secret" oneUserState (some "wrong")
    (ApiRequest.reportReq "") (by decide)

/-- Claim C9: in the facial variant a probe of length exactly 100 can never
match — the malformed check only rejects lengths below 100 but the match
branch demands strictly more than 100 — so with any (even nonempty) enrolled
set the resolver returns `none` and the scan is answered 404 with no state
change. -/
theorem claim_C9_length100 (s : ServerState) (v : List Int) (rid : String)
    (now : Nat) (dev : String) (h1 : v.length = 100) (h2 : s.users ≠ []) :
    identifyUserFromVector s.users v = none ∧
    (checkInOutFacial s v rid now dev).1.status = 404 ∧
    (checkInOutFacial s v rid now dev).2 = s := by
  have hidn : identifyUserFromVector s.users v = none := by
    unfold identifyUserFromVector
    rw [if_neg (by simp [h1])]
    cases hu : s.users.head? with
    | none => rfl
    | some u => simp [h1]
  have h0 : ¬(v.length = 0) := by simp [h1]
  refine ⟨hidn, ?_, ?_⟩
  · unfold checkInOutFacial
    rw [if_neg h0, hidn]
  · unfold checkInOutFacial
    rw [if_neg h0, hidn]

/-- Witness for C9 at a concrete length-100 probe. -/
theorem claim_C9_witness :
    identifyUserFromVector oneUserState.users (List.replicate 100 0) = none ∧
    (checkInOutFacial oneUserState (List.replicate 100 0) "r3" 1 "dev").1.status = 404 ∧
    (checkInOutFacial oneUserState (List.replicate 100 0) "r3" 1 "dev").2 = oneUserState :=
  claim_C9_length100 oneUserState (List.replicate 100 0) "r3" 1 "dev"
    (by decide) (by decide)

/-- Claim C10: enrollment accepts any nonempty template (with a nonempty
name): it answers 201 and stores the template as given, so a template shorter
than the 50-entry resolution floor yields an identity whose stored template is
shorter than every probe the resolver accepts. -/
theorem claim_C10_enroll_below_floor (s : ServerState) (name : String)
    (tmpl : List Int) (uid : String) (now : Nat)
    (h1 : name ≠ "") (h2 : 1 ≤ tmpl.length) :
    (enroll s name tmpl uid now).1.status = 201 ∧
    (enroll s name tmpl uid now).2.users =
      s.users ++ [{ id := uid, name := name, fingerprintTemplate := tmpl,
                    createdAt := now }] ∧
    (tmpl.length < 50 →
      ∀ users probe, identifyUserFromFingerprint users probe ≠ none →
        tmpl.length < probe.length) := by
  have hv : ¬(name = "" ∨ tmpl.length = 0) := by
    rintro (h | h)
    · exact h1 h
    · omega
  refine ⟨?_, ?_, ?_⟩
  · unfold enroll
    rw [if_neg hv]
  · unfold enroll
    rw [if_neg hv]
  · intro hlt users probe hne
    have hp : ¬(probe.length < 50) := by
      intro hp
      apply hne
      unfold identifyUserFromFingerprint
      rw [if_pos hp]
    omega

/-- Witness for C10 at a concrete length-3 template. -/
theorem claim_C10_witness :
    (enroll { users := [], attendanceRecords := [] } "Bob" [1, 2, 3] "u9" 5).1.status
        = 201 ∧
    (enroll { users := [], attendanceRecords := [] } "Bob" [1, 2, 3] "u9" 5).2.users =
      [] ++ [{ id := "u9", name := "Bob", fingerprintTemplate := [1, 2, 3],
               createdAt := 5 }] ∧
    ((3 : Nat) < 50 →
      ∀ users probe, identifyUserFromFingerprint users probe ≠ none →
        (3 : Nat) < probe.length) :=
  claim_C10_enroll_below_floor { users := [], attendanceRecords := [] } "Bob"
    [1, 2, 3] "u9" 5 (by decide) (by decide)

/-- Claim C5 counterexample: on a ledger with two equal-timestamp events
whose ids are "a" then "b", the report keeps insertion order ("a" before
"b"), so the listing is not sorted by timestamp descending with ties broken
by id descending. -/
theorem claim_C5_counterexample :
    ¬ List.Pairwise claimedReportOrder (reportListing c5State "") := by decide

/-- Claim C5 (amended): the report listing is the input records (enriched
with user names) permuted into non-strictly descending timestamp order by a
stable sort: any selection already in descending order — in particular any
run of equal-timestamp events in ledger order — keeps its relative order.
Event ids play no role in the ordering. -/
theorem claim_C5_amended (s : ServerState) (q : String) :
    (reportListing s q).Pairwise dtsDesc ∧
    List.Perm (reportListing s q) ((reportBase s q).map (detailRecord s.users)) ∧
    ∀ c : List DetailedRecord, c.Pairwise dtsDesc →
      c.Sublist ((reportBase s q).map (detailRecord s.users)) →
      c.Sublist (reportListing s q) := by
  refine ⟨?_, ?_, ?_⟩
  · exact List.sorted_insertionSort dtsDesc _
  · exact List.perm_insertionSort dtsDesc _
  · intro c hc hsub
    exact List.sublist_insertionSort hc hsub

/-- Witness for the amended C5 at the tie-carrying ledger. -/
theorem claim_C5_witness :
    (reportListing c5State "").Pairwise dtsDesc ∧
    List.Perm (reportListing c5State "")
      ((reportBase c5State "").map (detailRecord c5State.users)) ∧
    ((reportBase c5State "").map (detailRecord c5State.users)).Sublist
      (reportListing c5State "") :=
  ⟨(claim_C5_amended c5State "").1,
   (claim_C5_amended c5State "").2.1,
   (claim_C5_amended c5State "").2.2 _ (by decide) (List.Sublist.refl _)⟩

/-- Claim C8 counterexample: the mongoose report endpoint answers 200 (with
an empty listing), not 404, when the filter is a well-formed ObjectId that is
enrolled nowhere. -/
theorem claim_C8_counterexample :
    (reportMongoose [] [] "000000000000000000000000").status = 200 ∧
    (reportMongoose [] [] "000000000000000000000000").status ≠ 404 :=
  ⟨rfl, by decide⟩

/-- Claim C8 (amended): the in-memory report endpoints answer 404 for a
(nonempty) identity filter naming no enrolled user; the mongoose variant
instead answers 400 only for a malformed id and 200 — never 404 — for a
well-formed unknown id. -/
theorem claim_C8_amended (s : ServerState) (uid : String)
    (att : List AttendanceRecord) (musers : List User)
    (h1 : queryGiven uid) (h2 : ∀ u ∈ s.users, u.id ≠ uid)
    (h3 : isValidObjectId uid = true) :
    (report s uid).status = 404 ∧
    (reportMongoose att musers uid).status = 200 := by
  constructor
  · unfold report
    rw [if_pos h1]
    have hex : ¬(s.users.any (fun u => decide (u.id = uid)) = true) := by
      intro hany
      rw [List.any_eq_true] at hany
      obtain ⟨u, hmem, hu⟩ := hany
      exact h2 u hmem (of_decide_eq_true hu)
    rw [if_neg hex]
  · unfold reportMongoose
    rw [if_pos h1, if_pos h3]

/-- Witness for the amended C8 at a concrete unknown well-formed id. -/
theorem claim_C8_witness :
    (report { users := [], attendanceRecords := [] }
      "000000000000000000000001").status = 404 ∧
    (reportMongoose [] [] "000000000000000000000001").status = 200 :=
  claim_C8_amended { users := [], attendanceRecords := [] }
    "000000000000000000000001" [] [] (by decide) (by decide) (by decide)

/-! ### Lemmas for the template-confidentiality claim -/

lemma goodVal_subVal {x v : JVal} (hs : SubVal x v) : GoodVal v → GoodVal x := by
  induction hs with
  | refl => exact fun h => h
  | inArr hmem hsub ih =>
      intro hv
      cases hv with
      | arr l hshape hgood => exact ih (hgood _ hmem)
  | inObj hmem hsub ih =>
      intro hv
      cases hv with
      | obj l h => exact ih (h _ hmem)

lemma template_not_subVal {t : List Int} {v : JVal} (ht : t ≠ []) (hv : GoodVal v) :
    ¬ SubVal (JVal.jarr (t.map JVal.jnum)) v := by
  intro hs
  have hg := goodVal_subVal hs hv
  cases hg with
  | arr l hshape hgood =>
      cases t with
      | nil => exact ht rfl
      | cons a ts =>
          have hmem : JVal.jnum a ∈ (a :: ts).map JVal.jnum := by simp
          obtain ⟨fields, hf⟩ := hshape _ hmem
          exact JVal.noConfusion hf

lemma goodVal_obj_nil : GoodVal (JVal.jobj []) :=
  GoodVal.obj [] (by intro p hp; cases hp)

lemma goodVal_obj_cons {k : String} {v : JVal} {l : List (String × JVal)}
    (hv : GoodVal v) (hl : GoodVal (JVal.jobj l)) :
    GoodVal (JVal.jobj ((k, v) :: l)) := by
  cases hl with
  | obj l h =>
      refine GoodVal.obj _ ?_
      intro p hp
      rcases List.mem_cons.mp hp with rfl | hp
      · exact hv
      · exact h p hp

lemma goodVal_detailed (d : DetailedRecord) : GoodVal (detailedRecordToJVal d) :=
  goodVal_obj_cons (GoodVal.str _) (goodVal_obj_cons (GoodVal.str _)
    (goodVal_obj_cons (GoodVal.num _) (goodVal_obj_cons (GoodVal.str _)
      (goodVal_obj_cons (GoodVal.str _) (goodVal_obj_cons (GoodVal.str _)
        goodVal_obj_nil)))))

lemma goodVal_report_array (l : List DetailedRecord) :
    GoodVal (JVal.jarr (l.map detailedRecordToJVal)) := by
  refine GoodVal.arr _ ?_ ?_
  · intro v hv
    rw [List.mem_map] at hv
    obtain ⟨d, _, rfl⟩ := hv
    exact ⟨_, rfl⟩
  · intro v hv
    rw [List.mem_map] at hv
    obtain ⟨d, _, rfl⟩ := hv
    exact goodVal_detailed d

lemma goodVal_enroll_body (s : ServerState) (name : String) (tmpl : List Int)
    (uid : String) (now : Nat) : GoodVal ((enroll s name tmpl uid now).1.body) := by
  unfold enroll
  by_cases hv : name = "" ∨ tmpl.length = 0
  · rw [if_pos hv]
    exact goodVal_obj_cons (GoodVal.str _) goodVal_obj_nil
  · rw [if_neg hv]
    exact goodVal_obj_cons (GoodVal.str _) (goodVal_obj_cons
      (goodVal_obj_cons (GoodVal.str _) (goodVal_obj_cons (GoodVal.str _)
        (goodVal_obj_cons (GoodVal.num _) goodVal_obj_nil))) goodVal_obj_nil)

lemma goodVal_checkInOut_body (s : ServerState) (tmpl : List Int) (rid : String)
    (now : Nat) (dev : String) : GoodVal ((checkInOut s tmpl rid now dev).1.body) := by
  unfold checkInOut
  by_cases h0 : tmpl.length = 0
  · rw [if_pos h0]
    exact goodVal_obj_cons (GoodVal.str _) goodVal_obj_nil
  · rw [if_neg h0]
    cases identifyUserFromFingerprint s.users tmpl with
    | none => exact goodVal_obj_cons (GoodVal.str _) goodVal_obj_nil
    | some uid =>
        exact goodVal_obj_cons (GoodVal.str _) (goodVal_obj_cons
          (goodVal_obj_cons (GoodVal.num _) (goodVal_obj_cons (GoodVal.str _)
            goodVal_obj_nil)) goodVal_obj_nil)

lemma goodVal_report_body (s : ServerState) (q : String) :
    GoodVal ((report s q).body) := by
  unfold report
  by_cases hq : queryGiven q
  · rw [if_pos hq]
    by_cases he : s.users.any (fun u => decide (u.id = q)) = true
    · rw [if_pos he]
      exact goodVal_obj_cons (GoodVal.num _) (goodVal_obj_cons
        (goodVal_report_array _) goodVal_obj_nil)
    · rw [if_neg he]
      exact goodVal_obj_cons (GoodVal.str _) goodVal_obj_nil
  · rw [if_neg hq]
    exact goodVal_obj_cons (GoodVal.num _) (goodVal_obj_cons
      (goodVal_report_array _) goodVal_obj_nil)

lemma goodVal_health_body (s : ServerState) : GoodVal ((health s).body) :=
  goodVal_obj_cons (GoodVal.str _) (goodVal_obj_cons (GoodVal.str _)
    (goodVal_obj_cons (GoodVal.num _) goodVal_obj_nil))

lemma goodVal_handleApi_body (requiredApiKey : String) (s : ServerState)
    (apiKey : Option String) (req : ApiRequest) :
    GoodVal ((handleApi requiredApiKey s apiKey req).1.body) := by
  unfold handleApi
  by_cases hauth : apiAuthOk apiKey requiredApiKey = true
  · rw [if_pos hauth]
    cases req with
    | enrollReq name tmpl uid now =>
        simp only [dispatch]
        exact goodVal_enroll_body s name tmpl uid now
    | checkInOutReq tmpl rid now dev =>
        simp only [dispatch]
        exact goodVal_checkInOut_body s tmpl rid now dev
    | reportReq q =>
        simp only [dispatch]
        exact goodVal_report_body s q
  · rw [if_neg hauth]
    exact goodVal_obj_cons (GoodVal.str _) goodVal_obj_nil

/-- Claim C7: no response of the server — across enrollment, check-in/out,
report, health, and the unauthorized rejection — contains a biometric
template (a nonempty numeric array) anywhere in its JSON body. -/
theorem claim_C7_no_template_echo (requiredApiKey : String) (s : ServerState)
    (apiKey : Option String) (req : ApiRequest) (t : List Int) (ht : t ≠ []) :
    ¬ SubVal (JVal.jarr (t.map JVal.jnum))
        ((handleApi requiredApiKey s apiKey req).1.body) ∧
    ¬ SubVal (JVal.jarr (t.map JVal.jnum)) ((health s).body) :=
  ⟨template_not_subVal ht (goodVal_handleApi_body requiredApiKey s apiKey req),
   template_not_subVal ht (goodVal_health_body s)⟩

/-- Witness for C7 at a concrete request and template. -/
theorem claim_C7_witness :
    ¬ SubVal (JVal.jarr (([1, 2, 3] : List Int).map JVal.jnum))
        ((handleApi "k" oneUserState (some "k")
          (ApiRequest.enrollReq "Bob" [1, 2, 3] "u2" 7)).1.body) ∧
    ¬ SubVal (JVal.jarr (([1, 2, 3] : List Int).map JVal.jnum))
        ((health oneUserState).body) :=
  claim_C7_no_template_echo "k" oneUserState (some "k")
    (ApiRequest.enrollReq "Bob" [1, 2, 3] "u2" 7) [1, 2, 3] (by decide)

end AttendanceServer
